import Mathlib

/-!
# physicsSimulator: integration, wall collisions and pair collisions

Shallow embedding of `src/main.cpp`.

Numbers.  The program computes in `float`.  Here a scalar is an element of an
arbitrary linearly ordered field `K` (exact arithmetic, no rounding), so every
statement below holds for `K = ℝ` and can be evaluated for `K = ℚ`.  The two
places where IEEE arithmetic differs in kind from a field are kept explicit:

* `std::sqrt` is a parameter `sqrt : K → K`; theorems that need it to be the
  square root say so for the argument at which it is called (`ExactSqrtAt`).
* a division by a zero `distance` (line 62, `diff / distance`) does not give a
  number but NaN; the model returns `none` there, which stands for the state in
  which velocity and position of both particles are NaN.

State.  `sf::CircleShape` contributes only its position to the physics
(`shape.getPosition`, `shape.setPosition`, `shape.move`); radius, colour and
origin of the shape are set once by the constructor and never read back.
-/

namespace PhysicsSimulator

/-! ## Data model -/

/-- The type `sf::Vector2f`: a pair of scalars. -/
structure Vector2f (K : Type) where
  x : K
  y : K
  deriving DecidableEq, Repr

/-- The struct `Particle` (lines 14-34); `position` is the position stored in `shape`. -/
structure Particle (K : Type) where
  position : Vector2f K
  velocity : Vector2f K
  acceleration : Vector2f K
  radius : K
  deriving DecidableEq, Repr

section Model

variable {K : Type} [LinearOrderedField K]

/-- Vector sum, `operator+` of `sf::Vector2f`. -/
instance : Add (Vector2f K) := ⟨fun a b => ⟨a.x + b.x, a.y + b.y⟩⟩

/-- Vector difference, `operator-` of `sf::Vector2f`. -/
instance : Sub (Vector2f K) := ⟨fun a b => ⟨a.x - b.x, a.y - b.y⟩⟩

/-- Unary minus of `sf::Vector2f`. -/
instance : Neg (Vector2f K) := ⟨fun a => ⟨-a.x, -a.y⟩⟩

/-- Product `vector * scalar` of `sf::Vector2f`. -/
def Vector2f.scale (a : Vector2f K) (c : K) : Vector2f K := ⟨a.x * c, a.y * c⟩

/-- Product `scalar * vector` of `sf::Vector2f`. -/
def Vector2f.lscale (c : K) (a : Vector2f K) : Vector2f K := ⟨c * a.x, c * a.y⟩

/-- Quotient `vector / scalar` of `sf::Vector2f`. -/
def Vector2f.divide (a : Vector2f K) (c : K) : Vector2f K := ⟨a.x / c, a.y / c⟩

/-! ## Constants (lines 7-12) -/

/-- The constant `GRAVITY = 9.8f`. -/
def GRAVITY : K := 98 / 10

/-- The constant `ELASTICITY = 0.8f`. -/
def ELASTICITY : K := 8 / 10

/-- The constant `WINDOW_WIDTH = 800`, converted to a scalar where it is compared. -/
def WINDOW_WIDTH : K := 800

/-- The constant `WINDOW_HEIGHT = 600`, converted to a scalar where it is compared. -/
def WINDOW_HEIGHT : K := 600

/-! ## Operations -/

/-- The constructor `Particle(x, y, r, color)` (lines 20-28). -/
def Particle.new (x y r : K) : Particle K :=
  { position := ⟨x, y⟩, velocity := ⟨0, 10⟩, acceleration := ⟨0, GRAVITY⟩, radius := r }

/-- The function `handleBoundaryCollision` (lines 36-54).  `position` is the copy read on
line 37; both `setPosition` calls of the second `if` pass `position.x` of that copy. -/
def handleBoundaryCollision (particle : Particle K) : Particle K :=
  let position := particle.position
  let particle :=
    if position.x - particle.radius < 0 then
      { particle with
        velocity := ⟨-particle.velocity.x * ELASTICITY, particle.velocity.y⟩,
        position := ⟨particle.radius, position.y⟩ }
    else if position.x + particle.radius > WINDOW_WIDTH then
      { particle with
        velocity := ⟨-particle.velocity.x * ELASTICITY, particle.velocity.y⟩,
        position := ⟨WINDOW_WIDTH - particle.radius, position.y⟩ }
    else particle
  if position.y - particle.radius < 0 then
    { particle with
      velocity := ⟨particle.velocity.x, -particle.velocity.y * ELASTICITY⟩,
      position := ⟨position.x, particle.radius⟩ }
  else if position.y + particle.radius > WINDOW_HEIGHT then
    { particle with
      velocity := ⟨particle.velocity.x, -particle.velocity.y * ELASTICITY⟩,
      position := ⟨position.x, WINDOW_HEIGHT - particle.radius⟩ }
  else particle

/-- The local `diff` of `handleParticleCollision` (line 57). -/
def diff (p1 p2 : Particle K) : Vector2f K := p1.position - p2.position

/-- The argument of `std::sqrt` on line 58. -/
def distanceSq (p1 p2 : Particle K) : K :=
  (diff p1 p2).x * (diff p1 p2).x + (diff p1 p2).y * (diff p1 p2).y

/-- The local `distance` of `handleParticleCollision` (line 58). -/
def distance (sqrt : K → K) (p1 p2 : Particle K) : K := sqrt (distanceSq p1 p2)

/-- The local `overlap` of `handleParticleCollision` (line 59). -/
def overlap (sqrt : K → K) (p1 p2 : Particle K) : K :=
  p1.radius + p2.radius - distance sqrt p1 p2

/-- The local `normal` of `handleParticleCollision` (line 62); meaningful when the
distance is not zero. -/
def normal (sqrt : K → K) (p1 p2 : Particle K) : Vector2f K :=
  (diff p1 p2).divide (distance sqrt p1 p2)

/-- The local `relativeVelocity` of `handleParticleCollision` (line 63). -/
def relativeVelocity (p1 p2 : Particle K) : Vector2f K := p1.velocity - p2.velocity

/-- The local `velocityAlongNormal` of `handleParticleCollision` (line 65); meaningful when
the distance is not zero. -/
def velocityAlongNormal (sqrt : K → K) (p1 p2 : Particle K) : K :=
  (relativeVelocity p1 p2).x * (normal sqrt p1 p2).x
    + (relativeVelocity p1 p2).y * (normal sqrt p1 p2).y

/-- The function `handleParticleCollision` (lines 56-80), returning the two particles as
they are left.  The result is `none` when line 62 divides by a zero distance.  A square root
vanishes only at zero, where `diff` is `(0, 0)`: the quotient is `0 / 0`, the normal is NaN in
both components, the test `velocityAlongNormal > 0` on NaN is false, and lines 69-78 write
NaN into velocity and position of both particles. -/
def handleParticleCollision (sqrt : K → K) (p1 p2 : Particle K) :
    Option (Particle K × Particle K) :=
  if distance sqrt p1 p2 < p1.radius + p2.radius then
    if distance sqrt p1 p2 = 0 then none
    else if velocityAlongNormal sqrt p1 p2 > 0 then some (p1, p2)
    else
      let restitution : K := ELASTICITY
      let impulseScalar := -(1 + restitution) * velocityAlongNormal sqrt p1 p2
      let impulseScalar := impulseScalar / 2
      let impulse := Vector2f.lscale impulseScalar (normal sqrt p1 p2)
      some
        ({ p1 with
            velocity := p1.velocity + impulse,
            position := p1.position + (normal sqrt p1 p2).scale (overlap sqrt p1 p2 / 2) },
         { p2 with
            velocity := p2.velocity - impulse,
            position := p2.position + (-(normal sqrt p1 p2)).scale (overlap sqrt p1 p2 / 2) })
  else some (p1, p2)

/-- The loop body on line 114: `handleParticleCollision(particles[i], particles[j])` acting
on the two elements in place.  `none` as in `handleParticleCollision`. -/
def collidePair (sqrt : K → K) (particles : List (Particle K)) (i j : Nat) :
    Option (List (Particle K)) :=
  match particles[i]?, particles[j]? with
  | some p1, some p2 =>
    (handleParticleCollision sqrt p1 p2).map fun r => (particles.set i r.1).set j r.2
  | _, _ => some particles

/-- The inner loop (lines 113-115): `j` runs from `i + 1` up to `particles.size() - 1`. -/
def collideRow (sqrt : K → K) (i : Nat) (particles : List (Particle K)) :
    Option (List (Particle K)) :=
  (List.range' (i + 1) (particles.length - (i + 1))).foldlM
    (fun s j => collidePair sqrt s i j) particles

/-- The second loop of a frame (lines 112-116): `i` runs over all indices. -/
def collideAll (sqrt : K → K) (particles : List (Particle K)) : Option (List (Particle K)) :=
  (List.range particles.length).foldlM (fun s i => collideRow sqrt i s) particles

/-- The function `sqrt` returns the non-negative square root at the argument `s`. -/
def ExactSqrtAt (sqrt : K → K) (s : K) : Prop := 0 ≤ sqrt s ∧ sqrt s * sqrt s = s

/-- The particle lies inside the window with its whole disc. -/
def Contained (p : Particle K) : Prop :=
  p.radius ≤ p.position.x ∧ p.position.x ≤ WINDOW_WIDTH - p.radius ∧
  p.radius ≤ p.position.y ∧ p.position.y ≤ WINDOW_HEIGHT - p.radius

/-- One of the two tests on the x axis (lines 39 and 42) succeeds. -/
def CrossesX (p : Particle K) : Prop :=
  p.position.x - p.radius < 0 ∨ p.position.x + p.radius > WINDOW_WIDTH

/-- One of the two tests on the y axis (lines 47 and 50) succeeds. -/
def CrossesY (p : Particle K) : Prop :=
  p.position.y - p.radius < 0 ∨ p.position.y + p.radius > WINDOW_HEIGHT

/-- The radius fits the window: `radius > 0`, `2 * radius` within both dimensions. -/
def FitsWindow (p : Particle K) : Prop :=
  0 < p.radius ∧ 2 * p.radius ≤ WINDOW_WIDTH ∧ 2 * p.radius ≤ WINDOW_HEIGHT

end Model

/-! ## Concrete particles over `ℚ` used in evaluations -/

/-- Radius 10, centre `(-5, -5)`: beyond the left and the top wall at once. -/
def cornerTopLeft : Particle ℚ := Particle.new (-5) (-5) 10

/-- Radius 10, centre `(795, 595)`: beyond the right and the bottom wall at once. -/
def cornerBottomRight : Particle ℚ := Particle.new 795 595 10

/-- Radius 10, centre `(100, 100)`, velocity `(5, 0)`. -/
def scenarioLeft : Particle ℚ :=
  { position := ⟨100, 100⟩, velocity := ⟨5, 0⟩, acceleration := ⟨0, GRAVITY⟩, radius := 10 }

/-- Radius 10, centre `(115, 100)`, velocity `(-5, 0)`. -/
def scenarioRight : Particle ℚ :=
  { position := ⟨115, 100⟩, velocity := ⟨-5, 0⟩, acceleration := ⟨0, GRAVITY⟩, radius := 10 }

/-- The particle `scenarioLeft` after its collision with `scenarioRight`. -/
def scenarioLeftAfter : Particle ℚ :=
  { position := ⟨195 / 2, 100⟩, velocity := ⟨-4, 0⟩, acceleration := ⟨0, GRAVITY⟩,
    radius := 10 }

/-- The particle `scenarioRight` after its collision with `scenarioLeft`. -/
def scenarioRightAfter : Particle ℚ :=
  { position := ⟨235 / 2, 100⟩, velocity := ⟨4, 0⟩, acceleration := ⟨0, GRAVITY⟩,
    radius := 10 }

/-- Radius 10, centre `(5, 100)`, velocity `(-3, 2)`: across the left wall, moving left. -/
def leftIncoming : Particle ℚ :=
  { position := ⟨5, 100⟩, velocity := ⟨-3, 2⟩, acceleration := ⟨0, GRAVITY⟩, radius := 10 }

/-- Radius 10, centre `(100, 595)`, velocity `(7, 4)`: across the bottom wall only. -/
def bottomOnly : Particle ℚ :=
  { position := ⟨100, 595⟩, velocity := ⟨7, 4⟩, acceleration := ⟨0, GRAVITY⟩, radius := 10 }

/-- Radius 10, centre `(0, 100)`, velocity `(5, 0)`: the left one of three on a line. -/
def lineA : Particle ℚ :=
  { position := ⟨0, 100⟩, velocity := ⟨5, 0⟩, acceleration := ⟨0, GRAVITY⟩, radius := 10 }

/-- Radius 10, centre `(15, 100)`, at rest: overlapping `lineA` and `lineC`. -/
def lineB : Particle ℚ :=
  { position := ⟨15, 100⟩, velocity := ⟨0, 0⟩, acceleration := ⟨0, GRAVITY⟩, radius := 10 }

/-- Radius 10, centre `(30, 100)`, velocity `(-5, 0)`: the right one of three on a line. -/
def lineC : Particle ℚ :=
  { position := ⟨30, 100⟩, velocity := ⟨-5, 0⟩, acceleration := ⟨0, GRAVITY⟩, radius := 10 }

/-- The particle `lineA` after `handleParticleCollision(lineA, lineB)`. -/
def lineA1 : Particle ℚ :=
  { position := ⟨-5 / 2, 100⟩, velocity := ⟨1 / 2, 0⟩, acceleration := ⟨0, GRAVITY⟩,
    radius := 10 }

/-- The particle `lineB` after `handleParticleCollision(lineA, lineB)`. -/
def lineB1 : Particle ℚ :=
  { position := ⟨35 / 2, 100⟩, velocity := ⟨9 / 2, 0⟩, acceleration := ⟨0, GRAVITY⟩,
    radius := 10 }

/-- The particle `lineB1` after `handleParticleCollision(lineB1, lineC)`. -/
def lineB2 : Particle ℚ :=
  { position := ⟨55 / 4, 100⟩, velocity := ⟨-81 / 20, 0⟩, acceleration := ⟨0, GRAVITY⟩,
    radius := 10 }

/-- The particle `lineC` after `handleParticleCollision(lineB1, lineC)`. -/
def lineC2 : Particle ℚ :=
  { position := ⟨135 / 4, 100⟩, velocity := ⟨71 / 20, 0⟩, acceleration := ⟨0, GRAVITY⟩,
    radius := 10 }

/-- The particle `lineB` after `handleParticleCollision(lineB, lineC)`. -/
def lineB3 : Particle ℚ :=
  { position := ⟨25 / 2, 100⟩, velocity := ⟨-9 / 2, 0⟩, acceleration := ⟨0, GRAVITY⟩,
    radius := 10 }

/-- The particle `lineC` after `handleParticleCollision(lineB, lineC)`. -/
def lineC3 : Particle ℚ :=
  { position := ⟨65 / 2, 100⟩, velocity := ⟨-1 / 2, 0⟩, acceleration := ⟨0, GRAVITY⟩,
    radius := 10 }

/-- The particle `lineA` after `handleParticleCollision(lineA, lineB3)`. -/
def lineA4 : Particle ℚ :=
  { position := ⟨-15 / 4, 100⟩, velocity := ⟨-71 / 20, 0⟩, acceleration := ⟨0, GRAVITY⟩,
    radius := 10 }

/-- The particle `lineB3` after `handleParticleCollision(lineA, lineB3)`. -/
def lineB4 : Particle ℚ :=
  { position := ⟨65 / 4, 100⟩, velocity := ⟨81 / 20, 0⟩, acceleration := ⟨0, GRAVITY⟩,
    radius := 10 }

/-- The index pairs `(i, j)` for which lines 112-115 reach the call of line 114, in the order
in which they reach it, for a collection of `n` particles: `i` runs over `0 .. n - 1`, and for
each `i` the index `j` runs over `i + 1 .. n - 1`. -/
def collisionCalls (n : Nat) : List (Nat × Nat) :=
  (List.range n).flatMap fun i => (List.range' (i + 1) (n - (i + 1))).map fun j => (i, j)

/-- The order of the index pairs: first by `i`, then by `j`. -/
def LexLt (a b : Nat × Nat) : Prop := a.1 < b.1 ∨ (a.1 = b.1 ∧ a.2 < b.2)

section Theorems

variable {K : Type} [LinearOrderedField K]

/-! ## Shared lemmas -/

omit [LinearOrderedField K] in
theorem Vector2f.ext_iff' (a b : Vector2f K) : a = b ↔ a.x = b.x ∧ a.y = b.y := by
  cases a; cases b; simp

@[simp]
theorem Vector2f.add_x (a b : Vector2f K) : (a + b).x = a.x + b.x := rfl
@[simp]
theorem Vector2f.add_y (a b : Vector2f K) : (a + b).y = a.y + b.y := rfl
@[simp]
theorem Vector2f.sub_x (a b : Vector2f K) : (a - b).x = a.x - b.x := rfl
@[simp]
theorem Vector2f.sub_y (a b : Vector2f K) : (a - b).y = a.y - b.y := rfl
@[simp]
theorem Vector2f.neg_x (a : Vector2f K) : (-a).x = -a.x := rfl
@[simp]
theorem Vector2f.neg_y (a : Vector2f K) : (-a).y = -a.y := rfl

/-- The squared distance vanishes only for coincident centres. -/
theorem distanceSq_eq_zero_iff (p1 p2 : Particle K) :
    distanceSq p1 p2 = 0 ↔ p1.position = p2.position := by
  unfold distanceSq diff
  rw [Vector2f.ext_iff', mul_self_add_mul_self_eq_zero]
  simp [sub_eq_zero]

/-- The squared length of the normal is one when the square root is exact and not zero. -/
theorem normal_dot_self (sqrt : K → K) (p1 p2 : Particle K)
    (hs : ExactSqrtAt sqrt (distanceSq p1 p2)) (h0 : distance sqrt p1 p2 ≠ 0) :
    (normal sqrt p1 p2).x * (normal sqrt p1 p2).x
      + (normal sqrt p1 p2).y * (normal sqrt p1 p2).y = 1 := by
  have h1 : distance sqrt p1 p2 * distance sqrt p1 p2 = distanceSq p1 p2 := hs.2
  unfold normal Vector2f.divide
  simp only
  unfold distanceSq at h1
  field_simp
  linear_combination -h1

/-- The value of `handleParticleCollision` on the path that applies the impulse. -/
theorem handleParticleCollision_resolved (sqrt : K → K) (p1 p2 : Particle K)
    (hlt : distance sqrt p1 p2 < p1.radius + p2.radius) (h0 : distance sqrt p1 p2 ≠ 0)
    (hv : velocityAlongNormal sqrt p1 p2 ≤ 0) :
    handleParticleCollision sqrt p1 p2 = some
      ({ p1 with
          velocity := p1.velocity + Vector2f.lscale
            (-(1 + ELASTICITY) * velocityAlongNormal sqrt p1 p2 / 2) (normal sqrt p1 p2),
          position := p1.position + (normal sqrt p1 p2).scale (overlap sqrt p1 p2 / 2) },
       { p2 with
          velocity := p2.velocity - Vector2f.lscale
            (-(1 + ELASTICITY) * velocityAlongNormal sqrt p1 p2 / 2) (normal sqrt p1 p2),
          position := p2.position
            + (-(normal sqrt p1 p2)).scale (overlap sqrt p1 p2 / 2) }) := by
  unfold handleParticleCollision
  rw [if_pos hlt, if_neg h0, if_neg (not_lt.mpr hv)]

/-- After the separation step the squared distance is the square of the sum of the radii. -/
theorem distanceSq_resolved (sqrt : K → K) (p1 p2 : Particle K) (v1 v2 : Vector2f K)
    (hs : ExactSqrtAt sqrt (distanceSq p1 p2)) (h0 : distance sqrt p1 p2 ≠ 0) :
    distanceSq
      { p1 with
        velocity := v1,
        position := p1.position + (normal sqrt p1 p2).scale (overlap sqrt p1 p2 / 2) }
      { p2 with
        velocity := v2,
        position := p2.position + (-(normal sqrt p1 p2)).scale (overlap sqrt p1 p2 / 2) }
      = (p1.radius + p2.radius) * (p1.radius + p2.radius) := by
  have hn := normal_dot_self sqrt p1 p2 hs h0
  have hx : (normal sqrt p1 p2).x * distance sqrt p1 p2 = p1.position.x - p2.position.x := by
    simp only [normal, Vector2f.divide, diff, Vector2f.sub_x]
    exact div_mul_cancel₀ _ h0
  have hy : (normal sqrt p1 p2).y * distance sqrt p1 p2 = p1.position.y - p2.position.y := by
    simp only [normal, Vector2f.divide, diff, Vector2f.sub_y]
    exact div_mul_cancel₀ _ h0
  simp only [distanceSq, diff, overlap, Vector2f.scale, Vector2f.sub_x, Vector2f.sub_y,
    Vector2f.add_x, Vector2f.add_y, Vector2f.neg_x, Vector2f.neg_y]
  linear_combination
    (-((p1.position.x - p2.position.x - (normal sqrt p1 p2).x * distance sqrt p1 p2)
        + 2 * (normal sqrt p1 p2).x * (p1.radius + p2.radius))) * hx
    + (-((p1.position.y - p2.position.y - (normal sqrt p1 p2).y * distance sqrt p1 p2)
        + 2 * (normal sqrt p1 p2).y * (p1.radius + p2.radius))) * hy
    + ((p1.radius + p2.radius) * (p1.radius + p2.radius)) * hn

/-- The squared distance does not depend on the order of the two particles. -/
theorem distanceSq_comm (p1 p2 : Particle K) : distanceSq p2 p1 = distanceSq p1 p2 := by
  simp only [distanceSq, diff, Vector2f.sub_x, Vector2f.sub_y]
  ring

/-- The distance does not depend on the order of the two particles. -/
theorem distance_comm (sqrt : K → K) (p1 p2 : Particle K) :
    distance sqrt p2 p1 = distance sqrt p1 p2 := by
  rw [distance, distance, distanceSq_comm]

/-- The overlap does not depend on the order of the two particles. -/
theorem overlap_comm (sqrt : K → K) (p1 p2 : Particle K) :
    overlap sqrt p2 p1 = overlap sqrt p1 p2 := by
  rw [overlap, overlap, distance_comm, add_comm]

/-- Exchanging the two particles reverses the normal. -/
theorem normal_swap (sqrt : K → K) (p1 p2 : Particle K) :
    normal sqrt p2 p1 = -(normal sqrt p1 p2) := by
  rw [Vector2f.ext_iff']
  simp only [normal, Vector2f.divide, diff, distance_comm sqrt p1 p2, Vector2f.sub_x,
    Vector2f.sub_y, Vector2f.neg_x, Vector2f.neg_y]
  constructor <;> ring

/-- The relative velocity along the normal does not depend on the order of the particles. -/
theorem velocityAlongNormal_comm (sqrt : K → K) (p1 p2 : Particle K) :
    velocityAlongNormal sqrt p2 p1 = velocityAlongNormal sqrt p1 p2 := by
  simp only [velocityAlongNormal, normal_swap sqrt p1 p2, relativeVelocity, Vector2f.sub_x,
    Vector2f.sub_y, Vector2f.neg_x, Vector2f.neg_y]
  ring

/-- C1 (boundary containment fails in a corner): for the particle of radius 10 at
`(-5, -5)`, which lies beyond the left and the top wall, `handleBoundaryCollision` reflects
both velocity components but leaves the position `(-5, 10)`: the second `setPosition` writes
back the x coordinate read on line 37, so the particle is not contained. -/
theorem handleBoundaryCollision_topLeft_not_contained :
    FitsWindow cornerTopLeft ∧
    (handleBoundaryCollision cornerTopLeft).position = ⟨-5, 10⟩ ∧
    (handleBoundaryCollision cornerTopLeft).velocity = ⟨0, -8⟩ ∧
    ¬ Contained (handleBoundaryCollision cornerTopLeft) := by
  refine ⟨?_, ?_, ?_, ?_⟩
  · norm_num [FitsWindow, cornerTopLeft, Particle.new, WINDOW_WIDTH, WINDOW_HEIGHT]
  · norm_num [handleBoundaryCollision, cornerTopLeft, Particle.new, WINDOW_WIDTH,
      WINDOW_HEIGHT, ELASTICITY]
  · norm_num [handleBoundaryCollision, cornerTopLeft, Particle.new, WINDOW_WIDTH,
      WINDOW_HEIGHT, ELASTICITY]
  · norm_num [Contained, handleBoundaryCollision, cornerTopLeft, Particle.new, WINDOW_WIDTH,
      WINDOW_HEIGHT, ELASTICITY]

/-- C4 (the exact clamp on x is lost in a corner): for the particle of radius 10 at
`(795, 595)` both second tests succeed (`795 + 10 > 800`, `595 + 10 > 600`), and
`handleBoundaryCollision` leaves x at `795`, not at `WINDOW_WIDTH - radius = 790`; only y is
clamped, to `590`. -/
theorem handleBoundaryCollision_bottomRight_x_not_clamped :
    ¬ (cornerBottomRight.position.x - cornerBottomRight.radius < 0) ∧
    cornerBottomRight.position.x + cornerBottomRight.radius > WINDOW_WIDTH ∧
    cornerBottomRight.position.y + cornerBottomRight.radius > WINDOW_HEIGHT ∧
    (handleBoundaryCollision cornerBottomRight).position = ⟨795, 590⟩ ∧
    (handleBoundaryCollision cornerBottomRight).position.x
      ≠ WINDOW_WIDTH - cornerBottomRight.radius := by
  refine ⟨?_, ?_, ?_, ?_, ?_⟩ <;>
  norm_num [handleBoundaryCollision, cornerBottomRight, Particle.new, WINDOW_WIDTH,
      WINDOW_HEIGHT, ELASTICITY]

/-! ## Pair collisions -/

theorem rat_sqrt_zero : Rat.sqrt 0 = 0 := by
  rw [show (0 : ℚ) = 0 * 0 by norm_num, Rat.sqrt_eq]
  norm_num

theorem rat_sqrt_225 : Rat.sqrt 225 = 15 := by
  rw [show (225 : ℚ) = 15 * 15 by norm_num, Rat.sqrt_eq]
  norm_num

theorem rat_sqrt_400 : Rat.sqrt 400 = 20 := by
  rw [show (400 : ℚ) = 20 * 20 by norm_num, Rat.sqrt_eq]
  norm_num

theorem distanceSq_scenario : distanceSq scenarioLeft scenarioRight = 225 := by
  norm_num [distanceSq, diff, scenarioLeft, scenarioRight]

theorem distance_scenario : distance Rat.sqrt scenarioLeft scenarioRight = 15 := by
  rw [distance, distanceSq_scenario, rat_sqrt_225]

theorem exactSqrtAt_scenario :
    ExactSqrtAt Rat.sqrt (distanceSq scenarioLeft scenarioRight) := by
  rw [distanceSq_scenario, ExactSqrtAt, rat_sqrt_225]
  norm_num

theorem velocityAlongNormal_scenario :
    velocityAlongNormal Rat.sqrt scenarioLeft scenarioRight = -10 := by
  unfold velocityAlongNormal normal
  rw [distance_scenario]
  norm_num [relativeVelocity, diff, Vector2f.divide, scenarioLeft, scenarioRight]

/-- C3 (no guard for coincident centres): when the two centres coincide, the radii are
positive and `sqrt 0 = 0`, `handleParticleCollision` enters the collision branch and divides
by the zero distance; the result is the non-number outcome, not the unchanged pair. -/
theorem handleParticleCollision_coincident_not_guarded (sqrt : K → K) (p1 p2 : Particle K)
    (hpos : p1.position = p2.position) (hr1 : 0 < p1.radius) (hr2 : 0 < p2.radius)
    (hs : sqrt 0 = 0) :
    handleParticleCollision sqrt p1 p2 = none ∧
    handleParticleCollision sqrt p1 p2 ≠ some (p1, p2) := by
  have hd : distance sqrt p1 p2 = 0 := by
    rw [distance, (distanceSq_eq_zero_iff p1 p2).mpr hpos, hs]
  have hn : handleParticleCollision sqrt p1 p2 = none := by
    unfold handleParticleCollision
    rw [hd, if_pos (add_pos hr1 hr2), if_pos rfl]
  exact ⟨hn, by simp [hn]⟩

/-- Witness of C3: two particles of radius 10, both at `(100, 100)`. -/
theorem handleParticleCollision_coincident_not_guarded_witness :
    handleParticleCollision Rat.sqrt scenarioLeft { scenarioRight with position := ⟨100, 100⟩ }
      = none ∧
    handleParticleCollision Rat.sqrt scenarioLeft { scenarioRight with position := ⟨100, 100⟩ }
      ≠ some (scenarioLeft, { scenarioRight with position := ⟨100, 100⟩ }) :=
  handleParticleCollision_coincident_not_guarded Rat.sqrt scenarioLeft
    { scenarioRight with position := ⟨100, 100⟩ } rfl (by norm_num [scenarioLeft])
    (by norm_num [scenarioRight]) rat_sqrt_zero

/-- The head-on pair at `(100, 100)` and `(115, 100)` evaluated. -/
theorem handleParticleCollision_scenario :
    handleParticleCollision Rat.sqrt scenarioLeft scenarioRight
      = some (scenarioLeftAfter, scenarioRightAfter) := by
  rw [handleParticleCollision_resolved Rat.sqrt scenarioLeft scenarioRight
    (by rw [distance_scenario]; norm_num [scenarioLeft, scenarioRight])
    (by rw [distance_scenario]; norm_num)
    (by rw [velocityAlongNormal_scenario]; norm_num)]
  rw [velocityAlongNormal_scenario]
  unfold overlap normal
  rw [distance_scenario]
  norm_num [diff, Vector2f.divide, Vector2f.scale, Vector2f.lscale, scenarioLeft,
    scenarioRight, scenarioLeftAfter, scenarioRightAfter, ELASTICITY, Vector2f.ext_iff',
    Particle.mk.injEq]

/-- C8 (non-penetration tendency): for two overlapping particles with distinct centres
(`distance < p1.radius + p2.radius`, `distance ≠ 0`) that are approaching
(`velocityAlongNormal ≤ 0`), with the square root exact at the squared distance before and
after, `handleParticleCollision` returns a pair, and the distance between the centres of the
returned pair is not less than the distance before the call. -/
theorem handleParticleCollision_distance_not_less (sqrt : K → K) (p1 p2 : Particle K)
    (hs : ExactSqrtAt sqrt (distanceSq p1 p2)) (h0 : distance sqrt p1 p2 ≠ 0)
    (hlt : distance sqrt p1 p2 < p1.radius + p2.radius)
    (hv : velocityAlongNormal sqrt p1 p2 ≤ 0) :
    (∃ q1 q2, handleParticleCollision sqrt p1 p2 = some (q1, q2)) ∧
    ∀ q1 q2, handleParticleCollision sqrt p1 p2 = some (q1, q2) →
      ExactSqrtAt sqrt (distanceSq q1 q2) →
      distance sqrt p1 p2 ≤ distance sqrt q1 q2 := by
  have hres := handleParticleCollision_resolved sqrt p1 p2 hlt h0 hv
  refine ⟨⟨_, _, hres⟩, ?_⟩
  intro q1 q2 hq hs'
  rw [hres, Option.some.injEq, Prod.mk.injEq] at hq
  obtain ⟨hq1, hq2⟩ := hq
  have hsq := distanceSq_resolved sqrt p1 p2
    (p1.velocity + Vector2f.lscale
      (-(1 + ELASTICITY) * velocityAlongNormal sqrt p1 p2 / 2) (normal sqrt p1 p2))
    (p2.velocity - Vector2f.lscale
      (-(1 + ELASTICITY) * velocityAlongNormal sqrt p1 p2 / 2) (normal sqrt p1 p2)) hs h0
  rw [hq1, hq2] at hsq
  have hd0 : 0 ≤ distance sqrt p1 p2 := hs.1
  have hR : 0 ≤ p1.radius + p2.radius := le_trans hd0 hlt.le
  have heq : distance sqrt q1 q2 = p1.radius + p2.radius := by
    have h2 : distance sqrt q1 q2 * distance sqrt q1 q2
        = (p1.radius + p2.radius) * (p1.radius + p2.radius) := by
      rw [← hsq]
      exact hs'.2
    exact (mul_self_inj hs'.1 hR).mp h2
  rw [heq]
  exact hlt.le

/-- Witness of C8: the head-on pair at `(100, 100)` and `(115, 100)` is 15 apart before and
20 apart after. -/
theorem handleParticleCollision_distance_not_less_witness :
    (∃ q1 q2, handleParticleCollision Rat.sqrt scenarioLeft scenarioRight = some (q1, q2)) ∧
    distance Rat.sqrt scenarioLeft scenarioRight
      ≤ distance Rat.sqrt scenarioLeftAfter scenarioRightAfter :=
  ⟨(handleParticleCollision_distance_not_less Rat.sqrt scenarioLeft scenarioRight
      exactSqrtAt_scenario (by rw [distance_scenario]; norm_num)
      (by rw [distance_scenario]; norm_num [scenarioLeft, scenarioRight])
      (by rw [velocityAlongNormal_scenario]; norm_num)).1,
   (handleParticleCollision_distance_not_less Rat.sqrt scenarioLeft scenarioRight
      exactSqrtAt_scenario (by rw [distance_scenario]; norm_num)
      (by rw [distance_scenario]; norm_num [scenarioLeft, scenarioRight])
      (by rw [velocityAlongNormal_scenario]; norm_num)).2
      scenarioLeftAfter scenarioRightAfter handleParticleCollision_scenario (by
        rw [show distanceSq scenarioLeftAfter scenarioRightAfter = 400 by
          norm_num [distanceSq, diff, scenarioLeftAfter, scenarioRightAfter],
          ExactSqrtAt, rat_sqrt_400]
        norm_num)⟩

/-- C9 (argument-order symmetry): `handleParticleCollision` called on `(p2, p1)` leaves what
the call on `(p1, p2)` leaves, with the two components exchanged: each particle ends with the
same position and velocity whichever of the two is passed first (and the non-number outcome
arises for both orders or for none). -/
theorem handleParticleCollision_swap (sqrt : K → K) (p1 p2 : Particle K) :
    handleParticleCollision sqrt p2 p1
      = (handleParticleCollision sqrt p1 p2).map Prod.swap := by
  unfold handleParticleCollision
  rw [distance_comm sqrt p1 p2, velocityAlongNormal_comm sqrt p1 p2, overlap_comm sqrt p1 p2,
    normal_swap sqrt p1 p2, add_comm p2.radius p1.radius]
  by_cases hlt : distance sqrt p1 p2 < p1.radius + p2.radius
  · by_cases h0 : distance sqrt p1 p2 = 0
    · rw [if_pos hlt, if_pos hlt, if_pos h0, if_pos h0]
      rfl
    · by_cases hv : velocityAlongNormal sqrt p1 p2 > 0
      · rw [if_pos hlt, if_pos hlt, if_neg h0, if_neg h0, if_pos hv, if_pos hv]
        rfl
      · rw [if_pos hlt, if_pos hlt, if_neg h0, if_neg h0, if_neg hv, if_neg hv]
        simp only [Option.map_some', Prod.swap_prod_mk,
          Option.some.injEq, Prod.mk.injEq, Particle.mk.injEq, and_true, true_and,
          Vector2f.ext_iff', Vector2f.add_x, Vector2f.add_y, Vector2f.sub_x, Vector2f.sub_y,
          Vector2f.neg_x, Vector2f.neg_y, Vector2f.lscale, Vector2f.scale, neg_neg]
        refine ⟨⟨?_, ?_⟩, ?_, ?_⟩ <;> ring
  · rw [if_neg hlt, if_neg hlt]
    rfl

/-! ## Integration -/

/-- Writing back the element that is already stored changes nothing. -/
theorem set_of_getElem? {α : Type} (l : List α) (i : Nat) (a : α) (h : l[i]? = some a) :
    l.set i a = l := by
  apply List.ext_getElem?
  intro k
  rw [List.getElem?_set]
  split
  · next hik =>
    subst hik
    split
    · exact h.symm
    · next hlen =>
      rw [List.getElem?_eq_none (not_lt.mp hlen)]
  · rfl

/-- Every path of `handleParticleCollision` keeps radius and acceleration of both
particles. -/
theorem handleParticleCollision_keeps (sqrt : K → K) (p1 p2 q1 q2 : Particle K)
    (h : handleParticleCollision sqrt p1 p2 = some (q1, q2)) :
    (q1.radius = p1.radius ∧ q1.acceleration = p1.acceleration) ∧
    (q2.radius = p2.radius ∧ q2.acceleration = p2.acceleration) := by
  unfold handleParticleCollision at h
  split at h
  · split at h
    · exact absurd h (by simp)
    · split at h
      · rw [Option.some.injEq, Prod.mk.injEq] at h
        obtain ⟨rfl, rfl⟩ := h
        exact ⟨⟨rfl, rfl⟩, rfl, rfl⟩
      · rw [Option.some.injEq, Prod.mk.injEq] at h
        obtain ⟨rfl, rfl⟩ := h
        exact ⟨⟨rfl, rfl⟩, rfl, rfl⟩
  · rw [Option.some.injEq, Prod.mk.injEq] at h
    obtain ⟨rfl, rfl⟩ := h
    exact ⟨⟨rfl, rfl⟩, rfl, rfl⟩

/-- A property kept by every step of a fold is kept by the fold. -/
theorem foldlM_invariant {σ α : Type} (f : σ → α → Option σ) (P : σ → Prop)
    (hstep : ∀ s x t, P s → f s x = some t → P t) (xs : List α) :
    ∀ s t, P s → xs.foldlM f s = some t → P t := by
  induction xs with
  | nil =>
    intro s t hs h
    rw [List.foldlM_nil] at h
    cases h
    exact hs
  | cons x xs ih =>
    intro s t hs h
    rw [List.foldlM_cons] at h
    cases hfx : f s x with
    | none =>
      rw [hfx] at h
      exact absurd h (by simp)
    | some u =>
      rw [hfx] at h
      exact ih u t (hstep s x u hs hfx) h

/-- A call on line 114 keeps the radius and the acceleration at every index. -/
theorem collidePair_keeps (sqrt : K → K) (particles out : List (Particle K)) (i j : Nat)
    (h : collidePair sqrt particles i j = some out) :
    out.map (fun p => (p.radius, p.acceleration))
      = particles.map (fun p => (p.radius, p.acceleration)) := by
  unfold collidePair at h
  cases hi : particles[i]? with
  | none =>
    rw [hi] at h
    cases h
    rfl
  | some p1 =>
    cases hj : particles[j]? with
    | none =>
      rw [hi, hj] at h
      cases h
      rfl
    | some p2 =>
      rw [hi, hj] at h
      cases hc : handleParticleCollision sqrt p1 p2 with
      | none =>
        simp only [hc, Option.map_none'] at h
        exact absurd h (by simp)
      | some r =>
        obtain ⟨q1, q2⟩ := r
        simp only [hc, Option.map_some', Option.some.injEq] at h
        obtain ⟨⟨h1r, h1a⟩, h2r, h2a⟩ := handleParticleCollision_keeps sqrt p1 p2 q1 q2 hc
        rw [← h, List.map_set, List.map_set, h1r, h1a, h2r, h2a]
        have e1 : (particles.map (fun p => (p.radius, p.acceleration)))[i]?
            = some (p1.radius, p1.acceleration) := by
          rw [List.getElem?_map, hi]
          rfl
        have e2 : (particles.map (fun p => (p.radius, p.acceleration)))[j]?
            = some (p2.radius, p2.acceleration) := by
          rw [List.getElem?_map, hj]
          rfl
        rw [set_of_getElem? _ i _ e1, set_of_getElem? _ j _ e2]

/-- C11 (reflection sign): when one of the two tests of an axis succeeds
(`position - radius < 0`, or else `position + radius > bound`), `handleBoundaryCollision`
leaves on that axis the velocity component `-v * ELASTICITY` with `ELASTICITY = 8 / 10`, for
the x axis and for the y axis, whatever the other axis does; so a particle across the left
wall with `vx < 0` leaves with `vx > 0` of `8 / 10` of the magnitude. -/
theorem handleBoundaryCollision_reflects (p : Particle K) :
    (CrossesX p → (handleBoundaryCollision p).velocity.x = -p.velocity.x * (8 / 10)) ∧
    (CrossesY p → (handleBoundaryCollision p).velocity.y = -p.velocity.y * (8 / 10)) ∧
    (p.position.x - p.radius < 0 → p.velocity.x < 0 →
      0 < (handleBoundaryCollision p).velocity.x ∧
      (handleBoundaryCollision p).velocity.x = 8 / 10 * |p.velocity.x|) := by
  have hx : CrossesX p → (handleBoundaryCollision p).velocity.x = -p.velocity.x * (8 / 10) := by
    intro h
    unfold CrossesX at h
    unfold handleBoundaryCollision
    by_cases h1 : p.position.x - p.radius < 0 <;>
    by_cases h2 : p.position.x + p.radius > WINDOW_WIDTH <;>
    by_cases h3 : p.position.y - p.radius < 0 <;>
    by_cases h4 : p.position.y + p.radius > WINDOW_HEIGHT <;>
    simp [h1, h2, h3, h4, ELASTICITY] at h ⊢
  have hy : CrossesY p → (handleBoundaryCollision p).velocity.y = -p.velocity.y * (8 / 10) := by
    intro h
    unfold CrossesY at h
    unfold handleBoundaryCollision
    by_cases h1 : p.position.x - p.radius < 0 <;>
    by_cases h2 : p.position.x + p.radius > WINDOW_WIDTH <;>
    by_cases h3 : p.position.y - p.radius < 0 <;>
    by_cases h4 : p.position.y + p.radius > WINDOW_HEIGHT <;>
    simp [h1, h2, h3, h4, ELASTICITY] at h ⊢
  refine ⟨hx, hy, ?_⟩
  intro hleft hv
  rw [hx (Or.inl hleft), abs_of_neg hv]
  constructor
  · linarith
  · ring

/-- Witness of C11: radius 10 at `(5, 100)` with velocity `(-3, 2)` leaves with
`vx = 12 / 5`. -/
theorem handleBoundaryCollision_reflects_witness :
    (handleBoundaryCollision leftIncoming).velocity.x = -leftIncoming.velocity.x * (8 / 10) ∧
    0 < (handleBoundaryCollision leftIncoming).velocity.x ∧
    (handleBoundaryCollision leftIncoming).velocity.x = 8 / 10 * |leftIncoming.velocity.x| ∧
    (handleBoundaryCollision leftIncoming).velocity = ⟨12 / 5, 2⟩ :=
  ⟨(handleBoundaryCollision_reflects leftIncoming).1
      (Or.inl (by norm_num [leftIncoming])),
   ((handleBoundaryCollision_reflects leftIncoming).2.2
      (by norm_num [leftIncoming]) (by norm_num [leftIncoming])).1,
   ((handleBoundaryCollision_reflects leftIncoming).2.2
      (by norm_num [leftIncoming]) (by norm_num [leftIncoming])).2,
   by norm_num [handleBoundaryCollision, leftIncoming, WINDOW_WIDTH, WINDOW_HEIGHT,
      ELASTICITY]⟩

/-- C12 (an axis inside its bounds is untouched): if `radius ≤ x ≤ WINDOW_WIDTH - radius`
before the call, `handleBoundaryCollision` leaves `position.x` and `velocity.x` as they were,
and likewise for y with `WINDOW_HEIGHT`, whether or not the other axis triggers. -/
theorem handleBoundaryCollision_axis_untouched (p : Particle K) :
    (p.radius ≤ p.position.x ∧ p.position.x ≤ WINDOW_WIDTH - p.radius →
      (handleBoundaryCollision p).position.x = p.position.x ∧
      (handleBoundaryCollision p).velocity.x = p.velocity.x) ∧
    (p.radius ≤ p.position.y ∧ p.position.y ≤ WINDOW_HEIGHT - p.radius →
      (handleBoundaryCollision p).position.y = p.position.y ∧
      (handleBoundaryCollision p).velocity.y = p.velocity.y) := by
  constructor
  · rintro ⟨ha, hb⟩
    have h1 : ¬ p.position.x - p.radius < 0 := by linarith
    have h2 : ¬ p.position.x + p.radius > WINDOW_WIDTH := by
      simp only [gt_iff_lt, not_lt]
      linarith
    unfold handleBoundaryCollision
    by_cases h3 : p.position.y - p.radius < 0 <;>
    by_cases h4 : p.position.y + p.radius > WINDOW_HEIGHT <;>
    simp [h1, h2, h3, h4]
  · rintro ⟨ha, hb⟩
    have h3 : ¬ p.position.y - p.radius < 0 := by linarith
    have h4 : ¬ p.position.y + p.radius > WINDOW_HEIGHT := by
      simp only [gt_iff_lt, not_lt]
      linarith
    unfold handleBoundaryCollision
    by_cases h1 : p.position.x - p.radius < 0 <;>
    by_cases h2 : p.position.x + p.radius > WINDOW_WIDTH <;>
    simp [h1, h2, h3, h4]

/-- Witness of C12: radius 10 at `(100, 595)` with velocity `(7, 4)`: the y axis triggers,
x and `vx` stay `100` and `7`. -/
theorem handleBoundaryCollision_axis_untouched_witness :
    (handleBoundaryCollision bottomOnly).position.x = bottomOnly.position.x ∧
    (handleBoundaryCollision bottomOnly).velocity.x = bottomOnly.velocity.x ∧
    handleBoundaryCollision bottomOnly
      = { bottomOnly with position := ⟨100, 590⟩, velocity := ⟨7, -16 / 5⟩ } :=
  ⟨((handleBoundaryCollision_axis_untouched bottomOnly).1
      (by norm_num [bottomOnly, WINDOW_WIDTH])).1,
   ((handleBoundaryCollision_axis_untouched bottomOnly).1
      (by norm_num [bottomOnly, WINDOW_WIDTH])).2,
   by norm_num [handleBoundaryCollision, bottomOnly, WINDOW_WIDTH, WINDOW_HEIGHT,
      ELASTICITY]⟩

/-! ## Pair collisions: the scenario, the separation step, the energy -/

/-- C13 (the scenario of the specification): for two particles of radius 10 at `(100, 100)`
and `(115, 100)` with velocities `(5, 0)` and `(-5, 0)`, `handleParticleCollision` finds the
distance `15 < 20`, the normal `(-1, 0)` and `velocityAlongNormal = -10`, the impulse scalar
is `9`, the velocities become `(-4, 0)` and `(4, 0)`, and the positions `(97.5, 100)` and
`(117.5, 100)`: each centre is pushed by `2.5` along x, away from the other. -/
theorem handleParticleCollision_spec_scenario :
    distance Rat.sqrt scenarioLeft scenarioRight = 15 ∧
    distance Rat.sqrt scenarioLeft scenarioRight < scenarioLeft.radius + scenarioRight.radius ∧
    normal Rat.sqrt scenarioLeft scenarioRight = ⟨-1, 0⟩ ∧
    velocityAlongNormal Rat.sqrt scenarioLeft scenarioRight = -10 ∧
    -(1 + ELASTICITY) * velocityAlongNormal Rat.sqrt scenarioLeft scenarioRight / 2 = 9 ∧
    overlap Rat.sqrt scenarioLeft scenarioRight / 2 = 5 / 2 ∧
    handleParticleCollision Rat.sqrt scenarioLeft scenarioRight
      = some ({ scenarioLeft with velocity := ⟨-4, 0⟩, position := ⟨100 - 5 / 2, 100⟩ },
              { scenarioRight with velocity := ⟨4, 0⟩, position := ⟨115 + 5 / 2, 100⟩ }) := by
  refine ⟨distance_scenario, ?_, ?_, velocityAlongNormal_scenario, ?_, ?_, ?_⟩
  · rw [distance_scenario]
    norm_num [scenarioLeft, scenarioRight]
  · unfold normal
    rw [distance_scenario]
    norm_num [diff, Vector2f.divide, scenarioLeft, scenarioRight]
  · rw [velocityAlongNormal_scenario]
    norm_num [ELASTICITY]
  · unfold overlap
    rw [distance_scenario]
    norm_num [scenarioLeft, scenarioRight]
  · rw [handleParticleCollision_scenario]
    norm_num [scenarioLeft, scenarioRight, scenarioLeftAfter, scenarioRightAfter]

/-- Over `ℚ` the distance is `d` when the squared distance is the square of `d > 0`. -/
theorem distance_rat (p1 p2 : Particle ℚ) (d : ℚ) (hd : 0 < d)
    (hsq : distanceSq p1 p2 = d * d) : distance Rat.sqrt p1 p2 = d := by
  rw [distance, hsq, Rat.sqrt_eq, abs_of_pos hd]

/-- The call on `(lineA, lineB)`. -/
theorem handleParticleCollision_lineAB :
    handleParticleCollision Rat.sqrt lineA lineB = some (lineA1, lineB1) := by
  have hd : distance Rat.sqrt lineA lineB = 15 :=
    distance_rat _ _ 15 (by norm_num) (by norm_num [distanceSq, diff, lineA, lineB])
  have hv : velocityAlongNormal Rat.sqrt lineA lineB = -5 := by
    unfold velocityAlongNormal normal
    rw [hd]
    norm_num [relativeVelocity, diff, Vector2f.divide, lineA, lineB]
  rw [handleParticleCollision_resolved Rat.sqrt lineA lineB
    (by rw [hd]; norm_num [lineA, lineB]) (by rw [hd]; norm_num) (by rw [hv]; norm_num)]
  rw [hv]
  unfold overlap normal
  rw [hd]
  norm_num [diff, Vector2f.divide, Vector2f.scale, Vector2f.lscale, lineA, lineB, lineA1,
    lineB1, ELASTICITY, Vector2f.ext_iff', Particle.mk.injEq]

/-- The call on `(lineB1, lineC)`, after the call on `(lineA, lineB)`. -/
theorem handleParticleCollision_lineB1C :
    handleParticleCollision Rat.sqrt lineB1 lineC = some (lineB2, lineC2) := by
  have hd : distance Rat.sqrt lineB1 lineC = 25 / 2 :=
    distance_rat _ _ (25 / 2) (by norm_num) (by norm_num [distanceSq, diff, lineB1, lineC])
  have hv : velocityAlongNormal Rat.sqrt lineB1 lineC = -19 / 2 := by
    unfold velocityAlongNormal normal
    rw [hd]
    norm_num [relativeVelocity, diff, Vector2f.divide, lineB1, lineC]
  rw [handleParticleCollision_resolved Rat.sqrt lineB1 lineC
    (by rw [hd]; norm_num [lineB1, lineC]) (by rw [hd]; norm_num) (by rw [hv]; norm_num)]
  rw [hv]
  unfold overlap normal
  rw [hd]
  norm_num [diff, Vector2f.divide, Vector2f.scale, Vector2f.lscale, lineB1, lineC, lineB2,
    lineC2, ELASTICITY, Vector2f.ext_iff', Particle.mk.injEq]

/-- The call on `(lineB, lineC)`. -/
theorem handleParticleCollision_lineBC :
    handleParticleCollision Rat.sqrt lineB lineC = some (lineB3, lineC3) := by
  have hd : distance Rat.sqrt lineB lineC = 15 :=
    distance_rat _ _ 15 (by norm_num) (by norm_num [distanceSq, diff, lineB, lineC])
  have hv : velocityAlongNormal Rat.sqrt lineB lineC = -5 := by
    unfold velocityAlongNormal normal
    rw [hd]
    norm_num [relativeVelocity, diff, Vector2f.divide, lineB, lineC]
  rw [handleParticleCollision_resolved Rat.sqrt lineB lineC
    (by rw [hd]; norm_num [lineB, lineC]) (by rw [hd]; norm_num) (by rw [hv]; norm_num)]
  rw [hv]
  unfold overlap normal
  rw [hd]
  norm_num [diff, Vector2f.divide, Vector2f.scale, Vector2f.lscale, lineB, lineC, lineB3,
    lineC3, ELASTICITY, Vector2f.ext_iff', Particle.mk.injEq]

/-- The call on `(lineA, lineB3)`, after the call on `(lineB, lineC)`. -/
theorem handleParticleCollision_lineAB3 :
    handleParticleCollision Rat.sqrt lineA lineB3 = some (lineA4, lineB4) := by
  have hd : distance Rat.sqrt lineA lineB3 = 25 / 2 :=
    distance_rat _ _ (25 / 2) (by norm_num) (by norm_num [distanceSq, diff, lineA, lineB3])
  have hv : velocityAlongNormal Rat.sqrt lineA lineB3 = -19 / 2 := by
    unfold velocityAlongNormal normal
    rw [hd]
    norm_num [relativeVelocity, diff, Vector2f.divide, lineA, lineB3]
  rw [handleParticleCollision_resolved Rat.sqrt lineA lineB3
    (by rw [hd]; norm_num [lineA, lineB3]) (by rw [hd]; norm_num) (by rw [hv]; norm_num)]
  rw [hv]
  unfold overlap normal
  rw [hd]
  norm_num [diff, Vector2f.divide, Vector2f.scale, Vector2f.lscale, lineA, lineB3, lineA4,
    lineB4, ELASTICITY, Vector2f.ext_iff', Particle.mk.injEq]

/-- C16 (the order of the pairs matters): for the three particles of radius 10 at
`x = 0, 15, 30` on the line `y = 100` with velocities `(5, 0)`, `(0, 0)`, `(-5, 0)`, the
calls of line 114 on `(A, B)` and then `(B, C)` leave the velocities `(1/2, 0)`,
`(-81/20, 0)`, `(71/20, 0)`, while the calls on `(B, C)` and then `(A, B)` leave
`(-71/20, 0)`, `(81/20, 0)`, `(-1/2, 0)`: the two orders differ in every velocity. -/
theorem collidePair_order_matters :
    ((collidePair Rat.sqrt [lineA, lineB, lineC] 0 1).bind
        fun s => collidePair Rat.sqrt s 1 2) = some [lineA1, lineB2, lineC2] ∧
    ((collidePair Rat.sqrt [lineA, lineB, lineC] 1 2).bind
        fun s => collidePair Rat.sqrt s 0 1) = some [lineA4, lineB4, lineC3] ∧
    [lineA1, lineB2, lineC2].map (fun p => p.velocity)
      = [⟨1 / 2, 0⟩, ⟨-81 / 20, 0⟩, ⟨71 / 20, 0⟩] ∧
    [lineA4, lineB4, lineC3].map (fun p => p.velocity)
      = [⟨-71 / 20, 0⟩, ⟨81 / 20, 0⟩, ⟨-1 / 2, 0⟩] ∧
    lineA1.velocity ≠ lineA4.velocity ∧ lineB2.velocity ≠ lineB4.velocity ∧
    lineC2.velocity ≠ lineC3.velocity := by
  refine ⟨?_, ?_, ?_, ?_, ?_, ?_, ?_⟩
  · simp [collidePair, handleParticleCollision_lineAB, handleParticleCollision_lineB1C]
  · simp [collidePair, handleParticleCollision_lineBC, handleParticleCollision_lineAB3]
  · simp [lineA1, lineB2, lineC2]
  · simp [lineA4, lineB4, lineC3]
  · norm_num [lineA1, lineA4, Vector2f.ext_iff']
  · norm_num [lineB2, lineB4, Vector2f.ext_iff']
  · norm_num [lineC2, lineC3, Vector2f.ext_iff']

/-! ## What a frame never changes -/

/-- A call on line 114 keeps the length of the collection. -/
theorem collidePair_length (sqrt : K → K) (s t : List (Particle K)) (i j : Nat)
    (h : collidePair sqrt s i j = some t) : t.length = s.length := by
  have hlen := congrArg List.length (collidePair_keeps sqrt s t i j h)
  simpa using hlen

/-- The inner loop for the index `i` is the fold of the calls `(i, i + 1), (i, i + 2), ...`
over the collection. -/
theorem collideRow_eq_foldlM (sqrt : K → K) (i : Nat) (s : List (Particle K)) :
    collideRow sqrt i s
      = ((List.range' (i + 1) (s.length - (i + 1))).map fun j => (i, j)).foldlM
          (fun u ij => collidePair sqrt u ij.1 ij.2) s := by
  rw [List.foldlM_map]
  rfl

/-- The inner loop keeps the length of the collection. -/
theorem collideRow_length (sqrt : K → K) (i : Nat) (s t : List (Particle K))
    (h : collideRow sqrt i s = some t) : t.length = s.length := by
  unfold collideRow at h
  refine foldlM_invariant (fun u j => collidePair sqrt u i j)
    (fun u => u.length = s.length) ?_ _ s t rfl h
  intro u j v hu hv
  rw [collidePair_length sqrt u v i j hv]
  exact hu

/-- The outer loop over any list of indices is the fold of the calls of its rows. -/
theorem collideRows_eq_foldlM (sqrt : K → K) (n : Nat) (xs : List Nat) :
    ∀ s : List (Particle K), s.length = n →
      xs.foldlM (fun u i => collideRow sqrt i u) s
        = (xs.flatMap fun i => (List.range' (i + 1) (n - (i + 1))).map fun j => (i, j)).foldlM
            (fun u ij => collidePair sqrt u ij.1 ij.2) s := by
  induction xs with
  | nil =>
    intro s _
    rfl
  | cons i xs ih =>
    intro s hs
    rw [List.foldlM_cons, List.flatMap_cons, List.foldlM_append, collideRow_eq_foldlM, hs]
    cases hrow : ((List.range' (i + 1) (n - (i + 1))).map fun j => (i, j)).foldlM
        (fun u ij => collidePair sqrt u ij.1 ij.2) s with
    | none => rfl
    | some t =>
      have hlen : t.length = n := by
        have h2 : collideRow sqrt i s = some t := by
          rw [collideRow_eq_foldlM, hs]
          exact hrow
        rw [collideRow_length sqrt i s t h2]
        exact hs
      simp only [Option.bind_eq_bind, Option.some_bind]
      exact ih t hlen

/-- The pairs of `collisionCalls n` are the pairs `i < j < n`. -/
theorem mem_collisionCalls (n i j : Nat) : (i, j) ∈ collisionCalls n ↔ i < j ∧ j < n := by
  simp only [collisionCalls, List.mem_flatMap, List.mem_map, List.mem_range,
    List.mem_range'_1, Prod.mk.injEq]
  constructor
  · rintro ⟨a, ha, b, hb, rfl, rfl⟩
    omega
  · rintro ⟨hij, hjn⟩
    exact ⟨i, by omega, j, by omega, rfl, rfl⟩

/-- The list `collisionCalls n` ascends strictly in the order by `i`, then by `j`. -/
theorem pairwise_collisionCalls (n : Nat) : (collisionCalls n).Pairwise LexLt := by
  unfold collisionCalls
  rw [List.pairwise_flatMap]
  constructor
  · intro i _
    rw [List.pairwise_map]
    exact (List.pairwise_lt_range' (i + 1) (n - (i + 1))).imp fun h => Or.inr ⟨rfl, h⟩
  · refine (List.pairwise_lt_range n).imp ?_
    intro a b hab x hx y hy
    simp only [List.mem_map] at hx hy
    obtain ⟨_, _, rfl⟩ := hx
    obtain ⟨_, _, rfl⟩ := hy
    exact Or.inl hab

/-- Twice the number of calls of row sums `n - 1, n - 2, ...` over the first `m` rows. -/
theorem sum_rows (n m : Nat) (hm : m ≤ n) :
    2 * ((List.range m).map fun i => n - (i + 1)).sum + m * (m + 1) = 2 * m * n := by
  induction m with
  | zero => simp
  | succ k ih =>
    have ih' := ih (by omega)
    obtain ⟨d, rfl⟩ := Nat.exists_eq_add_of_le hm
    rw [List.range_succ, List.map_append, List.sum_append]
    simp only [List.map_cons, List.map_nil, List.sum_cons, List.sum_nil, add_zero,
      Nat.add_sub_cancel_left]
    nlinarith [ih']

/-- The list `collisionCalls n` has `n * (n - 1) / 2` elements. -/
theorem length_collisionCalls (n : Nat) : (collisionCalls n).length = n * (n - 1) / 2 := by
  have hlen : (collisionCalls n).length = ((List.range n).map fun i => n - (i + 1)).sum := by
    unfold collisionCalls
    rw [List.length_flatMap]
    congr 1
    apply List.map_congr_left
    intro i _
    simp
  have hsum := sum_rows n n (le_refl n)
  rw [hlen]
  cases n with
  | zero => simp
  | succ k =>
    simp only [Nat.add_sub_cancel]
    have h2 : 2 * ((List.range (k + 1)).map fun i => k + 1 - (i + 1)).sum = (k + 1) * k := by
      nlinarith [hsum]
    omega

/-- C15 (the pairs of the collision pass): the second loop of a frame on a collection of `n`
particles is the sequence of the calls of line 114 for the index pairs of
`collisionCalls n`, in that order; this list holds exactly the pairs `(i, j)` with
`i < j < n`, none of them twice, ascending by `i` and then by `j`; it has `n * (n - 1) / 2`
elements;
it holds no pair `(i, i)`, and never both `(i, j)` and `(j, i)`. -/
theorem collideAll_enumeration (sqrt : K → K) (particles : List (Particle K)) :
    collideAll sqrt particles
      = (collisionCalls particles.length).foldlM
          (fun s ij => collidePair sqrt s ij.1 ij.2) particles ∧
    (∀ i j, (i, j) ∈ collisionCalls particles.length ↔ i < j ∧ j < particles.length) ∧
    (collisionCalls particles.length).Nodup ∧
    (collisionCalls particles.length).Pairwise LexLt ∧
    (collisionCalls particles.length).length
      = particles.length * (particles.length - 1) / 2 ∧
    (∀ i, (i, i) ∉ collisionCalls particles.length) ∧
    (∀ i j, ¬ ((i, j) ∈ collisionCalls particles.length ∧
      (j, i) ∈ collisionCalls particles.length)) := by
  have hnodup : (collisionCalls particles.length).Nodup := by
    refine (pairwise_collisionCalls particles.length).imp ?_
    rintro a b (h | ⟨_, h⟩) rfl <;> exact lt_irrefl _ h
  refine ⟨?_, mem_collisionCalls _, hnodup, pairwise_collisionCalls _,
    length_collisionCalls _, ?_, ?_⟩
  · unfold collideAll collisionCalls
    exact collideRows_eq_foldlM sqrt particles.length _ particles rfl
  · intro i hi
    have := (mem_collisionCalls _ i i).mp hi
    omega
  · rintro i j ⟨h1, h2⟩
    have := (mem_collisionCalls _ i j).mp h1
    have := (mem_collisionCalls _ j i).mp h2
    omega

/-- For four particles the calls are `(0,1), (0,2), (0,3), (1,2), (1,3), (2,3)`. -/
theorem collisionCalls_four :
    collisionCalls 4 = [(0, 1), (0, 2), (0, 3), (1, 2), (1, 3), (2, 3)] := by
  decide

end Theorems

end PhysicsSimulator
